import Mathlib

/-!
Verification of the pre-connect audio relay of a multimodal-agent example
repository.  The relay (`handle_pre_connect` in `preconnect.py`) reads byte
chunks from a byte-stream reader, reframes them through an `AudioByteStream`
into fixed-size audio frames, and appends the frames to the input audio
buffer of the first model session.  `agent.py` additionally defines a
`SessionConfig` dataclass whose `to_dict` strips the OpenAI API key.

Bytes are modelled as `Nat`, chunks and frames as `List Nat`.
-/

namespace Relay

/-- Fuel-driven splitting of a byte list into complete frames of `F` bytes;
`fuel` bounds the recursion depth and any `fuel ≥ l.length` is enough. -/
def splitFramesAux (F : Nat) : Nat → List Nat → List (List Nat) × List Nat
  | 0, l => ([], l)
  | fuel + 1, l =>
    if 0 < F ∧ F ≤ l.length then
      let r := splitFramesAux F fuel (l.drop F)
      (l.take F :: r.1, r.2)
    else
      ([], l)

/-- Split a byte list into as many complete frames of `F` bytes as can be
formed, returning the list of full frames and the leftover carry
(shorter than `F`). -/
def splitFrames (F : Nat) (l : List Nat) : List (List Nat) × List Nat :=
  splitFramesAux F l.length l

/-- Modelled from the spec: the stream reframer (`AudioByteStream` from
`livekit.agents.utils.audio`) is a library dependency whose source is not in
this repository.  Per the spec (§4.1, §8) it carries a byte buffer between
calls and cuts frames of `samples_per_channel × channels × sample_width`
bytes, with 16-bit (2-byte) samples and a default of 10 ms per frame
(`sample_rate / 100` samples per channel). -/
structure AudioByteStream where
  frameSize : Nat
  buf : List Nat
deriving DecidableEq

/-- Modelled from the spec: constructing the reframer from stream metadata;
frame size in bytes is `(sample_rate / 100) × num_channels × 2`. -/
def AudioByteStream.init (sampleRate numChannels : Nat) : AudioByteStream :=
  { frameSize := sampleRate / 100 * numChannels * 2, buf := [] }

/-- Modelled from the spec: `write` appends the chunk to the carry and
returns all complete frames that can now be formed; the remainder stays
buffered. -/
def AudioByteStream.write (s : AudioByteStream) (chunk : List Nat) :
    AudioByteStream × List (List Nat) :=
  let p := splitFrames s.frameSize (s.buf ++ chunk)
  ({ s with buf := p.2 }, p.1)

/-- Modelled from the spec: `flush` emits the remaining carry as one final
(possibly short) frame, or nothing if the carry is empty, and clears the
internal state. -/
def AudioByteStream.flush (s : AudioByteStream) :
    AudioByteStream × List (List Nat) :=
  ({ s with buf := [] }, if s.buf.isEmpty then [] else [s.buf])

/-- Feed a list of chunks through the reframer in order, collecting the
emitted frames. -/
def writeAll (s : AudioByteStream) : List (List Nat) → AudioByteStream × List (List Nat)
  | [] => (s, [])
  | c :: cs =>
    let p := s.write c
    let q := writeAll p.1 cs
    (q.1, p.2 ++ q.2)

/-- All frames produced by writing the chunks and then flushing, starting
from a fresh reframer with frame size `F`. -/
def outputFrames (F : Nat) (cs : List (List Nat)) : List (List Nat) :=
  let w := writeAll { frameSize := F, buf := [] } cs
  w.2 ++ w.1.flush.2

/-- The frame sink (`session.input_audio_buffer` in `preconnect.py`): its only
observable behaviour relevant here is whether `append` raises for a given
frame.  `rejects f = true` models `append(f)` raising an exception. -/
structure Sink where
  rejects : List Nat → Bool

/-- Append frames to the sink one at a time, in order, stopping at the first
frame whose append raises.  Returns the frames actually appended and `true`
iff no append raised. -/
def appendAll (sink : Sink) : List (List Nat) → List (List Nat) × Bool
  | [] => ([], true)
  | f :: fs =>
    if sink.rejects f then ([], false)
    else
      let r := appendAll sink fs
      (f :: r.1, r.2)

/-- Outcome of the `async for chunk in reader` loop of `handle_pre_connect`
(`preconnect.py` lines 37-43): final reframer state, frames appended to the
input buffer, whether an exception aborted the loop (caught by the
`except Exception` clause), and how many chunks were consumed. -/
structure LoopResult where
  st : AudioByteStream
  appended : List (List Nat)
  aborted : Bool
  consumed : Nat
deriving DecidableEq

/-- The chunk loop of `handle_pre_connect`: for each chunk, `write` it through
the reframer and append every produced frame to the input buffer.  The
`try`/`except` wraps the whole loop, so the first failing append aborts the
loop; the chunks after it are not processed. -/
def processChunks (sink : Sink) (st : AudioByteStream) :
    List (List Nat) → LoopResult
  | [] => ⟨st, [], false, 0⟩
  | c :: cs =>
    let w := st.write c
    let a := appendAll sink w.2
    if a.2 then
      let r := processChunks sink w.1 cs
      ⟨r.st, a.1 ++ r.appended, r.aborted, r.consumed + 1⟩
    else
      ⟨w.1, a.1, true, 1⟩

/-- How the byte stream terminates after its chunks have been delivered:
normal end-of-stream, a stream error (raises `Exception` in the loop), or
task cancellation (raises `CancelledError`, which `except Exception` does not
catch but `finally` still runs for). -/
inductive Ending
  | normal
  | errored
  | cancelled
deriving DecidableEq

/-- The byte-stream reader: stream metadata attributes (string key-value
pairs), the chunks it delivers in order, and how iteration terminates. -/
structure ByteStreamReader where
  attributes : List (String × String)
  chunks : List (List Nat)
  ending : Ending

/-- The realtime model as seen by `handle_pre_connect`: its list of sessions,
each either absent (`None`) or carrying an input audio buffer. -/
structure RealtimeModel where
  sessions : List (Option Sink)

/-- The numeric value of a decimal digit character, or `none` for any other
character. -/
def digitVal (c : Char) : Option Nat :=
  if '0' ≤ c ∧ c ≤ '9' then some (c.toNat - Char.toNat '0') else none

/-- Accumulate decimal digits left to right; any non-digit character makes
the whole parse fail. -/
def parseDigitsAux : List Char → Nat → Option Nat
  | [], acc => some acc
  | c :: cs, acc =>
    match digitVal c with
    | none => none
    | some d => parseDigitsAux cs (acc * 10 + d)

/-- Parse a non-empty all-digit character list as a natural number. -/
def parseDigits : List Char → Option Nat
  | [] => none
  | c :: cs => parseDigitsAux (c :: cs) 0

/-- Python's `int(str)` on a decimal string: an optional sign followed by
digits; anything else raises `ValueError`, modelled as `none`. -/
def pyInt (s : String) : Option Int :=
  match s.data with
  | '-' :: cs => (parseDigits cs).map fun n => -(n : Int)
  | '+' :: cs => (parseDigits cs).map fun n => (n : Int)
  | cs => (parseDigits cs).map fun n => (n : Int)

/-- Parsing of the stream metadata (`preconnect.py` lines 28-29):
`int(reader.info.attributes["sampleRate"])` and
`int(reader.info.attributes["channels"])`; a missing key or a non-numeric
value raises (`KeyError`/`ValueError`/`TypeError`), modelled as `none`. -/
def parseMeta (attrs : List (String × String)) : Option (Int × Int) :=
  match (List.lookup "sampleRate" attrs).bind pyInt,
      (List.lookup "channels" attrs).bind pyInt with
  | some sr, some nc => some (sr, nc)
  | _, _ => none

/-- Observable outcome of one `handle_pre_connect` invocation: the frames
appended to the session's input audio buffer in order, the number of
commit/end-of-input signals sent to the sink, the number of chunks consumed
from the reader, whether stream metadata was read, the number of error-level
log records, whether the reframer's `flush` was invoked, and the frames
`flush` returned. -/
structure RunResult where
  appended : List (List Nat)
  commits : Nat
  consumedChunks : Nat
  metaRead : Bool
  errorLogs : Nat
  flushed : Bool
  flushFrames : List (List Nat)
deriving DecidableEq

/-- The run result of the two early-return paths (no session, bad metadata
apart from its log): nothing consumed, nothing appended, no flush, no
commit. -/
def emptyRun : RunResult :=
  { appended := [], commits := 0, consumedChunks := 0, metaRead := false
    errorLogs := 0, flushed := false, flushFrames := [] }

/-- Shallow embedding of `handle_pre_connect` (`preconnect.py` lines 21-47):
return early if there is no first session; parse the metadata, logging an
error and returning on failure; otherwise build the reframer, run the chunk
loop (a processing error is logged and ends the loop; a stream error is
logged; cancellation is not caught), then in the `finally` block invoke
`flush` and append its frames.  No commit/end-of-input signal is ever sent. -/
def handle_pre_connect (model : RealtimeModel) (reader : ByteStreamReader) :
    RunResult :=
  match model.sessions.head? with
  | none => emptyRun
  | some none => emptyRun
  | some (some sink) =>
    match parseMeta reader.attributes with
    | none => { emptyRun with metaRead := true, errorLogs := 1 }
    | some (sr, nc) =>
      let st0 := AudioByteStream.init sr.toNat nc.toNat
      let loop := processChunks sink st0 reader.chunks
      let loopLogs : Nat :=
        if loop.aborted then 1
        else if reader.ending = Ending.errored then 1 else 0
      let fl := loop.st.flush
      let fa := appendAll sink fl.2
      { appended := loop.appended ++ fa.1
        commits := 0
        consumedChunks := loop.consumed
        metaRead := true
        errorLogs := loopLogs
        flushed := true
        flushFrames := fl.2 }

/-- A value appearing in the dictionary produced by `asdict` on a
`SessionConfig` (`agent.py`): strings, the float temperature (modelled as a
rational), the optional max-token count, and the modality list. -/
inductive ConfigValue
  | vStr (s : String)
  | vNum (q : ℚ)
  | vOptInt (n : Option Int)
  | vStrList (l : List String)
deriving DecidableEq

/-- `SessionConfig._modalities_from_string` (`agent.py` lines 60-65). -/
def modalities_from_string (m : String) : List String :=
  if m = "text_and_audio" then ["text", "audio"]
  else if m = "text_only" then ["text"]
  else ["text", "audio"]

/-- The `SessionConfig` dataclass (`agent.py` lines 43-50), after
`__post_init__` has replaced a `None` modality list by the default. -/
structure SessionConfig where
  openai_api_key : String
  instructions : String
  voice : String
  temperature : ℚ
  max_output_tokens : Option Int
  modalities : List String
deriving DecidableEq

/-- `dataclasses.asdict` applied to a `SessionConfig`: the fields as ordered
key-value pairs. -/
def SessionConfig.asdict (c : SessionConfig) : List (String × ConfigValue) :=
  [("openai_api_key", .vStr c.openai_api_key),
    ("instructions", .vStr c.instructions),
    ("voice", .vStr c.voice),
    ("temperature", .vNum c.temperature),
    ("max_output_tokens", .vOptInt c.max_output_tokens),
    ("modalities", .vStrList c.modalities)]

/-- `SessionConfig.to_dict` (`agent.py` lines 56-57): the field dictionary
with the `openai_api_key` entry removed. -/
def SessionConfig.to_dict (c : SessionConfig) : List (String × ConfigValue) :=
  c.asdict.filter fun kv => kv.1 != "openai_api_key"

/-- A sink that accepts every frame (no append ever raises). -/
def acceptAll : Sink := ⟨fun _ => false⟩

/-- A sink whose `append` raises exactly on the frame `[1, 1]`. -/
def rejectOneOne : Sink := ⟨fun f => f == [1, 1]⟩

/-- A model with one live session backed by the always-accepting sink. -/
def mdlAccept : RealtimeModel := ⟨[some acceptAll]⟩

/-- A model with one live session backed by the `[1, 1]`-rejecting sink. -/
def mdlReject : RealtimeModel := ⟨[some rejectOneOne]⟩

/-- A reader with valid metadata that ends immediately with no chunks. -/
def rdrEmpty : ByteStreamReader :=
  ⟨[("sampleRate", "8000"), ("channels", "1")], [], Ending.normal⟩

/-- A reader with valid metadata (frame size `100 / 100 * 1 * 2 = 2` bytes)
delivering the chunks `[1, 1]` and `[2, 2]`. -/
def rdrTwoChunks : ByteStreamReader :=
  ⟨[("sampleRate", "100"), ("channels", "1")], [[1, 1], [2, 2]], Ending.normal⟩

/-- A reader whose metadata is missing the `sampleRate` attribute but which
still carries a chunk. -/
def rdrBadMeta : ByteStreamReader :=
  ⟨[("channels", "1")], [[1, 2]], Ending.normal⟩

/-- The concrete chunk sequence of the spec scenario: 100, 250 and 37 zero
bytes. -/
def scenarioChunks : List (List Nat) :=
  [List.replicate 100 0, List.replicate 250 0, List.replicate 37 0]

/-- A model whose session list is empty. -/
def mdlNoSession : RealtimeModel := ⟨[]⟩

/-- A model whose first session is `None`. -/
def mdlNoneSession : RealtimeModel := ⟨[none]⟩

/-- The index, within a list of frames, of the frame containing the byte at
global position `p` of the concatenated byte stream. -/
def frameIdx : List (List Nat) → Nat → Nat
  | [], _ => 0
  | f :: fs, p => if p < f.length then 0 else frameIdx fs (p - f.length) + 1

end Relay

namespace Relay

theorem splitFramesAux_congr (F f1 : Nat) :
    ∀ (f2 : Nat) (l : List Nat), l.length ≤ f1 → l.length ≤ f2 →
      splitFramesAux F f1 l = splitFramesAux F f2 l := by
  induction f1 with
  | zero =>
    intro f2 l h1 h2
    have hl : l = [] := List.eq_nil_of_length_eq_zero (by omega)
    subst hl
    cases f2 with
    | zero => rfl
    | succ m =>
      simp only [splitFramesAux]
      rw [if_neg (by rintro ⟨ha, hb⟩; simp at hb; omega)]
  | succ n ih =>
    intro f2 l h1 h2
    cases f2 with
    | zero =>
      have hl : l = [] := List.eq_nil_of_length_eq_zero (by omega)
      subst hl
      simp only [splitFramesAux]
      rw [if_neg (by rintro ⟨ha, hb⟩; simp at hb; omega)]
    | succ m =>
      simp only [splitFramesAux]
      by_cases h : 0 < F ∧ F ≤ l.length
      · rw [if_pos h, if_pos h,
          ih m (l.drop F) (by simp only [List.length_drop]; omega)
            (by simp only [List.length_drop]; omega)]
      · rw [if_neg h, if_neg h]

theorem splitFrames_pos (F : Nat) (l : List Nat) (hF : 0 < F) (hl : F ≤ l.length) :
    splitFrames F l =
      ((l.take F) :: (splitFrames F (l.drop F)).1, (splitFrames F (l.drop F)).2) := by
  unfold splitFrames
  obtain ⟨n, hn⟩ : ∃ n, l.length = n + 1 := ⟨l.length - 1, by omega⟩
  rw [hn]
  simp only [splitFramesAux]
  rw [if_pos ⟨hF, hl⟩,
    splitFramesAux_congr F n (l.drop F).length (l.drop F)
      (by simp only [List.length_drop]; omega) (Nat.le_refl _)]

theorem splitFrames_neg (F : Nat) (l : List Nat) (h : ¬(0 < F ∧ F ≤ l.length)) :
    splitFrames F l = ([], l) := by
  unfold splitFrames
  cases hn : l.length with
  | zero => rfl
  | succ n =>
    simp only [splitFramesAux]
    rw [if_neg h]

/-- Induction along the recursion structure of `splitFrames`: to prove a
property of every byte list, prove it when a frame can be cut (assuming it
for the rest) and when none can. -/
theorem splitFrames_induction (F : Nat) (P : List Nat → Prop)
    (h1 : ∀ l, 0 < F ∧ F ≤ l.length → P (l.drop F) → P l)
    (h2 : ∀ l, ¬(0 < F ∧ F ≤ l.length) → P l) :
    ∀ l, P l := fun l =>
  if h : 0 < F ∧ F ≤ l.length then
    h1 l h (splitFrames_induction F P h1 h2 (l.drop F))
  else
    h2 l h
termination_by l => l.length
decreasing_by
  simp only [List.length_drop]
  omega

theorem splitFrames_flatten (F : Nat) (l : List Nat) :
    (splitFrames F l).1.flatten ++ (splitFrames F l).2 = l := by
  induction l using splitFrames_induction F with
  | h1 l h ih =>
    rw [splitFrames_pos F l h.1 h.2]
    simp only [List.flatten_cons, List.append_assoc]
    rw [ih]
    exact List.take_append_drop F l
  | h2 l h =>
    rw [splitFrames_neg F l h]
    simp

theorem splitFrames_frame_len (F : Nat) (l : List Nat) :
    ∀ f ∈ (splitFrames F l).1, f.length = F := by
  induction l using splitFrames_induction F with
  | h1 l h ih =>
    rw [splitFrames_pos F l h.1 h.2]
    intro f hf
    rcases List.mem_cons.mp hf with hf | hf
    · subst hf; exact List.length_take_of_le h.2
    · exact ih f hf
  | h2 l h =>
    rw [splitFrames_neg F l h]
    intro f hf
    simp at hf

theorem splitFrames_rest_short (F : Nat) (l : List Nat) (hF : 0 < F) :
    (splitFrames F l).2.length < F := by
  induction l using splitFrames_induction F with
  | h1 l h ih =>
    rw [splitFrames_pos F l h.1 h.2]
    exact ih
  | h2 l h =>
    rw [splitFrames_neg F l h]
    show l.length < F
    by_contra hc
    exact h ⟨hF, by omega⟩

theorem splitFrames_count (F : Nat) (l : List Nat) (hF : 0 < F) :
    (splitFrames F l).1.length = l.length / F ∧
      (splitFrames F l).2.length = l.length % F := by
  induction l using splitFrames_induction F with
  | h1 l h ih =>
    rw [splitFrames_pos F l h.1 h.2]
    obtain ⟨ih1, ih2⟩ := ih
    constructor
    · rw [Nat.div_eq_sub_div h.1 h.2]
      simp only [List.length_cons, ih1, List.length_drop]
    · rw [Nat.mod_eq_sub_mod h.2]
      simp only [ih2, List.length_drop]
  | h2 l h =>
    rw [splitFrames_neg F l h]
    have hl : l.length < F := by
      by_contra hc
      exact h ⟨hF, by omega⟩
    simp [Nat.div_eq_of_lt hl, Nat.mod_eq_of_lt hl]

theorem splitFrames_append (F : Nat) (l m : List Nat) :
    splitFrames F (l ++ m) =
      ((splitFrames F l).1 ++ (splitFrames F ((splitFrames F l).2 ++ m)).1,
        (splitFrames F ((splitFrames F l).2 ++ m)).2) := by
  induction l using splitFrames_induction F with
  | h1 l h ih =>
    rw [splitFrames_pos F l h.1 h.2]
    have hlen : F ≤ (l ++ m).length := by
      simp only [List.length_append]; omega
    rw [splitFrames_pos F (l ++ m) h.1 hlen]
    rw [List.take_append_of_le_length h.2, List.drop_append_of_le_length h.2]
    rw [ih]
    simp
  | h2 l h =>
    rw [splitFrames_neg F l h]
    simp

theorem splitFrames_nil (F : Nat) : splitFrames F [] = ([], []) := by
  apply splitFrames_neg
  rintro ⟨h1, h2⟩
  simp at h2
  omega

theorem writeAll_eq (cs : List (List Nat)) (s : AudioByteStream)
    (hbuf : splitFrames s.frameSize s.buf = ([], s.buf)) :
    writeAll s cs =
      ({ frameSize := s.frameSize,
          buf := (splitFrames s.frameSize (s.buf ++ cs.flatten)).2 },
        (splitFrames s.frameSize (s.buf ++ cs.flatten)).1) := by
  induction cs generalizing s with
  | nil =>
    simp [writeAll, hbuf]
  | cons c cs ih =>
    have hbuf1 :
        splitFrames s.frameSize (splitFrames s.frameSize (s.buf ++ c)).2 =
          ([], (splitFrames s.frameSize (s.buf ++ c)).2) := by
      rcases Nat.eq_zero_or_pos s.frameSize with h0 | hpos
      · exact splitFrames_neg _ _ (by omega)
      · refine splitFrames_neg _ _ ?_
        have := splitFrames_rest_short s.frameSize (s.buf ++ c) hpos
        omega
    have step := ih ⟨s.frameSize, (splitFrames s.frameSize (s.buf ++ c)).2⟩ hbuf1
    simp only [writeAll, AudioByteStream.write, step]
    have happ := splitFrames_append s.frameSize (s.buf ++ c) cs.flatten
    simp only [List.flatten_cons, ← List.append_assoc, happ]

theorem appendAll_accept (fs : List (List Nat)) :
    appendAll acceptAll fs = (fs, true) := by
  induction fs with
  | nil => rfl
  | cons f fs ih =>
    simp only [appendAll]
    rw [show acceptAll.rejects f = false from rfl]
    simp [ih]

theorem appendAll_all_accepted (sink : Sink) (fs : List (List Nat))
    (h : (fs.all fun f => !sink.rejects f) = true) :
    appendAll sink fs = (fs, true) := by
  induction fs with
  | nil => rfl
  | cons f fs ih =>
    simp only [List.all_cons, Bool.and_eq_true, Bool.not_eq_eq_eq_not,
      Bool.not_true] at h
    simp [appendAll, h.1, ih h.2]

theorem processChunks_accept (cs : List (List Nat)) (st : AudioByteStream) :
    processChunks acceptAll st cs =
      ⟨(writeAll st cs).1, (writeAll st cs).2, false, cs.length⟩ := by
  induction cs generalizing st with
  | nil => rfl
  | cons c cs ih =>
    simp [processChunks, writeAll, appendAll_accept, ih]

theorem processChunks_aborted_frozen (sink : Sink) (cs extra : List (List Nat))
    (st : AudioByteStream)
    (hab : (processChunks sink st cs).aborted = true) :
    processChunks sink st (cs ++ extra) = processChunks sink st cs := by
  induction cs generalizing st with
  | nil => simp [processChunks] at hab
  | cons c cs ih =>
    by_cases ha : (appendAll sink (st.write c).2).2 = true
    · have hab2 : (processChunks sink (st.write c).1 cs).aborted = true := by
        simpa [processChunks, ha] using hab
      have ih2 := ih (st.write c).1 hab2
      simp only [List.cons_append, processChunks, ha, if_true, List.append_eq,
        ih2]
    · have ha2 : (appendAll sink (st.write c).2).2 = false := by
        simpa using ha
      simp only [List.cons_append, processChunks, ha2, Bool.false_eq_true,
        if_false]

theorem outputFrames_writeAll (F : Nat) (cs : List (List Nat)) :
    writeAll { frameSize := F, buf := [] } cs =
      ({ frameSize := F, buf := (splitFrames F cs.flatten).2 },
        (splitFrames F cs.flatten).1) := by
  have := writeAll_eq cs { frameSize := F, buf := [] } (splitFrames_nil F)
  simpa using this

theorem outputFrames_flatten (F : Nat) (cs : List (List Nat)) :
    (outputFrames F cs).flatten = cs.flatten := by
  simp only [outputFrames, outputFrames_writeAll, AudioByteStream.flush]
  rcases h : (splitFrames F cs.flatten).2 with _ | ⟨b, r⟩
  · simp only [List.isEmpty_nil, if_true, List.append_nil, List.flatten_append,
      List.flatten_nil]
    have := splitFrames_flatten F cs.flatten
    rw [h] at this
    simpa using this
  · simp only [List.isEmpty_cons, if_false, List.flatten_append]
    have := splitFrames_flatten F cs.flatten
    rw [h] at this
    simpa using this

theorem handle_accept (model : RealtimeModel) (reader : ByteStreamReader)
    (sr nc : Int)
    (hs : model.sessions.head? = some (some acceptAll))
    (hm : parseMeta reader.attributes = some (sr, nc)) :
    (handle_pre_connect model reader).appended =
      outputFrames (sr.toNat / 100 * nc.toNat * 2) reader.chunks := by
  simp only [handle_pre_connect, hs, hm, AudioByteStream.init,
    processChunks_accept, appendAll_accept, outputFrames]

end Relay

namespace Relay

theorem frameIdx_mono (fs : List (List Nat)) :
    ∀ i j, i ≤ j → frameIdx fs i ≤ frameIdx fs j := by
  induction fs with
  | nil => intro i j hij; simp [frameIdx]
  | cons f fs ih =>
    intro i j hij
    simp only [frameIdx]
    by_cases hi : i < f.length
    · by_cases hj : j < f.length
      · simp [hi, hj]
      · simp [hi, hj]
    · have hj : ¬j < f.length := by omega
      simp only [hi, hj, if_false]
      have := ih (i - f.length) (j - f.length) (by omega)
      omega

theorem frameIdx_contains (fs : List (List Nat)) :
    ∀ p, p < fs.flatten.length →
      ∃ f, fs[frameIdx fs p]? = some f ∧
        ∃ q, q < f.length ∧ f[q]? = fs.flatten[p]? := by
  induction fs with
  | nil => intro p hp; simp at hp
  | cons f fs ih =>
    intro p hp
    simp only [frameIdx, List.flatten_cons]
    by_cases h : p < f.length
    · simp only [h, if_true]
      exact ⟨f, by simp, p, h, (List.getElem?_append_left h).symm⟩
    · simp only [h, if_false]
      simp only [List.flatten_cons, List.length_append] at hp
      have hp2 : p - f.length < fs.flatten.length := by omega
      obtain ⟨g, hg, q, hq, he⟩ := ih (p - f.length) hp2
      refine ⟨g, ?_, q, hq, ?_⟩
      · simpa [List.getElem?_cons_succ] using hg
      · rw [he, List.getElem?_append_right (by omega)]

theorem handle_run (model : RealtimeModel) (reader : ByteStreamReader)
    (sink : Sink) (sr nc : Int)
    (hs : model.sessions.head? = some (some sink))
    (hm : parseMeta reader.attributes = some (sr, nc)) :
    handle_pre_connect model reader =
      { appended :=
          (processChunks sink (AudioByteStream.init sr.toNat nc.toNat)
              reader.chunks).appended ++
            (appendAll sink
              (processChunks sink (AudioByteStream.init sr.toNat nc.toNat)
                  reader.chunks).st.flush.2).1
        commits := 0
        consumedChunks :=
          (processChunks sink (AudioByteStream.init sr.toNat nc.toNat)
              reader.chunks).consumed
        metaRead := true
        errorLogs :=
          if (processChunks sink (AudioByteStream.init sr.toNat nc.toNat)
              reader.chunks).aborted then 1
          else if reader.ending = Ending.errored then 1 else 0
        flushed := true
        flushFrames :=
          (processChunks sink (AudioByteStream.init sr.toNat nc.toNat)
              reader.chunks).st.flush.2 } := by
  simp only [handle_pre_connect, hs, hm]

end Relay

namespace Relay

/-- Claim C1, counterexample: the claim says the sink's commit/end-of-input
signal is invoked exactly once per relay instance, even on an empty stream.
On the empty stream the code invokes it zero times, not once: there is no
commit call anywhere in `handle_pre_connect`. -/
theorem C1_counterexample :
    (handle_pre_connect mdlAccept rdrEmpty).commits = 0 ∧
      (handle_pre_connect mdlAccept rdrEmpty).commits ≠ 1 := by
  constructor
  · rfl
  · decide

/-- Claim C1, amended: `handle_pre_connect` never invokes a commit/end-of-input
signal on the sink — the commit count is zero for every relay instance (the
only finalization is that `flush`'s output is appended in the `finally`
block). -/
theorem C1_theorem (model : RealtimeModel) (reader : ByteStreamReader) :
    (handle_pre_connect model reader).commits = 0 := by
  unfold handle_pre_connect
  cases model.sessions.head? with
  | none => rfl
  | some s =>
    cases s with
    | none => rfl
    | some sink =>
      cases parseMeta reader.attributes with
      | none => rfl
      | some m => cases m with | mk sr nc => rfl

/-- Claim C2: on every exit of the chunk-processing loop — normal
end-of-stream, raised error, or cancellation (the `ending` field is
unconstrained here, and an aborted loop is covered too) — the reframer's
`flush` is invoked, and provided the sink accepts the flush frames, every
frame `flush` returns is appended to the input buffer after the loop's own
appends. -/
theorem C2_theorem (model : RealtimeModel) (reader : ByteStreamReader)
    (sink : Sink) (sr nc : Int)
    (hs : model.sessions.head? = some (some sink))
    (hm : parseMeta reader.attributes = some (sr, nc))
    (hacc : ((handle_pre_connect model reader).flushFrames.all
        fun f => !sink.rejects f) = true) :
    (handle_pre_connect model reader).flushed = true ∧
      (handle_pre_connect model reader).appended =
        (processChunks sink (AudioByteStream.init sr.toNat nc.toNat)
            reader.chunks).appended ++
          (handle_pre_connect model reader).flushFrames := by
  have hrun := handle_run model reader sink sr nc hs hm
  rw [hrun] at hacc
  rw [hrun]
  refine ⟨rfl, ?_⟩
  simp only at hacc ⊢
  rw [appendAll_all_accepted sink _ hacc]

/-- Witness for C2 at a concrete model and reader. -/
theorem C2_witness :
    mdlAccept.sessions.head? = some (some acceptAll) ∧
      parseMeta rdrTwoChunks.attributes = some (100, 1) ∧
      ((handle_pre_connect mdlAccept rdrTwoChunks).flushFrames.all
        fun f => !acceptAll.rejects f) = true ∧
      ((handle_pre_connect mdlAccept rdrTwoChunks).flushed = true ∧
        (handle_pre_connect mdlAccept rdrTwoChunks).appended =
          (processChunks acceptAll (AudioByteStream.init (100 : Int).toNat (1 : Int).toNat)
              rdrTwoChunks.chunks).appended ++
            (handle_pre_connect mdlAccept rdrTwoChunks).flushFrames) :=
  ⟨rfl, rfl, by decide,
    C2_theorem mdlAccept rdrTwoChunks acceptAll 100 1 rfl rfl (by decide)⟩

end Relay

namespace Relay

/-- Claim C3, counterexample: the claim says a failing chunk is logged and
processing continues with subsequent chunks.  With a sink that rejects the
frame of the first chunk `[1, 1]`, the second chunk `[2, 2]` is never
converted or appended: the error is logged but `appended` stays empty and
only one of the two chunks is consumed. -/
theorem C3_counterexample :
    (handle_pre_connect mdlReject rdrTwoChunks).appended = [] ∧
      (handle_pre_connect mdlReject rdrTwoChunks).errorLogs = 1 ∧
      (handle_pre_connect mdlReject rdrTwoChunks).consumedChunks = 1 ∧
      rdrTwoChunks.chunks.length = 2 := by
  refine ⟨?_, ?_, ?_, ?_⟩ <;> decide

/-- Claim C3, amended: if processing one chunk fails, the failure is logged
and the relay aborts the chunk loop — chunks queued after the failing one
are not processed (appending `extra` chunks changes nothing) — and the relay
still proceeds to flush. -/
theorem C3_theorem (model : RealtimeModel) (reader : ByteStreamReader)
    (sink : Sink) (sr nc : Int) (extra : List (List Nat))
    (hs : model.sessions.head? = some (some sink))
    (hm : parseMeta reader.attributes = some (sr, nc))
    (hab : (processChunks sink (AudioByteStream.init sr.toNat nc.toNat)
        reader.chunks).aborted = true) :
    (handle_pre_connect model reader).errorLogs = 1 ∧
      (handle_pre_connect model reader).flushed = true ∧
      (handle_pre_connect model
          { reader with chunks := reader.chunks ++ extra }).appended =
        (handle_pre_connect model reader).appended ∧
      (handle_pre_connect model
          { reader with chunks := reader.chunks ++ extra }).consumedChunks =
        (handle_pre_connect model reader).consumedChunks := by
  have hrun := handle_run model reader sink sr nc hs hm
  have hrun2 := handle_run model { reader with chunks := reader.chunks ++ extra }
    sink sr nc hs hm
  have hfrozen := processChunks_aborted_frozen sink reader.chunks extra
    (AudioByteStream.init sr.toNat nc.toNat) hab
  rw [hrun, hrun2]
  simp [hfrozen, hab]

/-- Witness for C3 at a concrete rejecting sink and two-chunk reader. -/
theorem C3_witness :
    mdlReject.sessions.head? = some (some rejectOneOne) ∧
      parseMeta rdrTwoChunks.attributes = some (100, 1) ∧
      (processChunks rejectOneOne
          (AudioByteStream.init (100 : Int).toNat (1 : Int).toNat)
          rdrTwoChunks.chunks).aborted = true ∧
      ((handle_pre_connect mdlReject rdrTwoChunks).errorLogs = 1 ∧
        (handle_pre_connect mdlReject rdrTwoChunks).flushed = true ∧
        (handle_pre_connect mdlReject
            { rdrTwoChunks with chunks := rdrTwoChunks.chunks ++ [[9, 9]] }).appended =
          (handle_pre_connect mdlReject rdrTwoChunks).appended ∧
        (handle_pre_connect mdlReject
            { rdrTwoChunks with chunks := rdrTwoChunks.chunks ++ [[9, 9]] }).consumedChunks =
          (handle_pre_connect mdlReject rdrTwoChunks).consumedChunks) :=
  ⟨rfl, rfl, by decide,
    C3_theorem mdlReject rdrTwoChunks rejectOneOne 100 1 [[9, 9]] rfl rfl (by decide)⟩

end Relay

namespace Relay

/-- Claim C4: writing any finite chunk sequence of total length `L` through
a fresh reframer with frame size `F > 0` and then flushing yields exactly
`L / F` full frames of `F` bytes each, then one final flush frame of
`L % F` bytes when `L % F > 0` (none otherwise); and the output depends only
on the concatenated bytes, not on the chunk boundaries. -/
theorem C4_theorem (F : Nat) (cs : List (List Nat)) (hF : 0 < F) :
    outputFrames F cs = outputFrames F [cs.flatten] ∧
      (writeAll { frameSize := F, buf := [] } cs).2.length =
        cs.flatten.length / F ∧
      (∀ f ∈ (writeAll { frameSize := F, buf := [] } cs).2, f.length = F) ∧
      (writeAll { frameSize := F, buf := [] } cs).1.flush.2.length =
        (if cs.flatten.length % F = 0 then 0 else 1) ∧
      ∀ f ∈ (writeAll { frameSize := F, buf := [] } cs).1.flush.2,
        f.length = cs.flatten.length % F := by
  have hw := outputFrames_writeAll F cs
  have hw1 := outputFrames_writeAll F [cs.flatten]
  have hcount := splitFrames_count F cs.flatten hF
  refine ⟨?_, ?_, ?_, ?_, ?_⟩
  · simp only [outputFrames, hw, hw1, List.flatten_cons, List.flatten_nil,
      List.append_nil]
  · rw [hw]; exact hcount.1
  · rw [hw]; exact splitFrames_frame_len F cs.flatten
  · rw [hw]
    simp only [AudioByteStream.flush]
    rcases hr : (splitFrames F cs.flatten).2 with _ | ⟨b, r⟩
    · have h0 : cs.flatten.length % F = 0 := by
        rw [← hcount.2, hr]; rfl
      rw [if_pos h0]
      rfl
    · have hne : cs.flatten.length % F ≠ 0 := by
        rw [← hcount.2, hr]; simp
      rw [if_neg hne]
      rfl
  · rw [hw]
    simp only [AudioByteStream.flush]
    rcases hr : (splitFrames F cs.flatten).2 with _ | ⟨b, r⟩
    · simp [hr]
    · intro f hf
      simp only [hr, List.isEmpty_cons, Bool.false_eq_true, if_false,
        List.mem_singleton] at hf
      subst hf
      rw [← hcount.2, hr]

set_option maxRecDepth 40000 in
/-- Witness for C4 on the spec scenario: chunks of 100, 250 and 37 bytes
with frame size 160. -/
theorem C4_witness :
    0 < 160 ∧
      (outputFrames 160 scenarioChunks =
          outputFrames 160 [scenarioChunks.flatten] ∧
        (writeAll { frameSize := 160, buf := [] } scenarioChunks).2.length =
          scenarioChunks.flatten.length / 160 ∧
        (∀ f ∈ (writeAll { frameSize := 160, buf := [] } scenarioChunks).2,
          f.length = 160) ∧
        (writeAll { frameSize := 160, buf := [] } scenarioChunks).1.flush.2.length =
          (if scenarioChunks.flatten.length % 160 = 0 then 0 else 1) ∧
        ∀ f ∈ (writeAll { frameSize := 160, buf := [] } scenarioChunks).1.flush.2,
          f.length = scenarioChunks.flatten.length % 160) :=
  ⟨by decide, C4_theorem 160 scenarioChunks (by decide)⟩

/-- Claim C5: when the stream runs to normal completion with an accepting
sink, the total byte length of the appended frames (flush frame included)
equals the total bytes received; indeed the concatenated appended bytes are
exactly the concatenated stream bytes. -/
theorem C5_theorem (model : RealtimeModel) (reader : ByteStreamReader)
    (sr nc : Int)
    (hs : model.sessions.head? = some (some acceptAll))
    (hm : parseMeta reader.attributes = some (sr, nc))
    (hnorm : reader.ending = Ending.normal) :
    ((handle_pre_connect model reader).appended.map List.length).sum =
        (reader.chunks.map List.length).sum ∧
      (handle_pre_connect model reader).appended.flatten =
        reader.chunks.flatten := by
  have h1 := handle_accept model reader sr nc hs hm
  have h2 := outputFrames_flatten (sr.toNat / 100 * nc.toNat * 2) reader.chunks
  have h3 : (handle_pre_connect model reader).appended.flatten =
      reader.chunks.flatten := by rw [h1]; exact h2
  refine ⟨?_, h3⟩
  have := congrArg List.length h3
  simpa [List.length_flatten] using this

/-- Witness for C5 at a concrete accepting model and two-chunk reader. -/
theorem C5_witness :
    mdlAccept.sessions.head? = some (some acceptAll) ∧
      parseMeta rdrTwoChunks.attributes = some (100, 1) ∧
      rdrTwoChunks.ending = Ending.normal ∧
      (((handle_pre_connect mdlAccept rdrTwoChunks).appended.map List.length).sum =
          (rdrTwoChunks.chunks.map List.length).sum ∧
        (handle_pre_connect mdlAccept rdrTwoChunks).appended.flatten =
          rdrTwoChunks.chunks.flatten) :=
  ⟨rfl, rfl, rfl, C5_theorem mdlAccept rdrTwoChunks 100 1 rfl rfl rfl⟩

/-- Claim C6: frames are appended in the same relative order as the bytes
that produced them — the appended frames concatenate to the byte stream,
the byte-position-to-frame-index map is monotone, and every stream byte is
found inside the frame at its index. -/
theorem C6_theorem (model : RealtimeModel) (reader : ByteStreamReader)
    (sr nc : Int)
    (hs : model.sessions.head? = some (some acceptAll))
    (hm : parseMeta reader.attributes = some (sr, nc)) :
    (handle_pre_connect model reader).appended.flatten =
        reader.chunks.flatten ∧
      (∀ i j, i ≤ j →
        frameIdx (handle_pre_connect model reader).appended i ≤
          frameIdx (handle_pre_connect model reader).appended j) ∧
      ∀ p, p < reader.chunks.flatten.length →
        ∃ f,
          ((handle_pre_connect model reader).appended)[
            frameIdx (handle_pre_connect model reader).appended p]? = some f ∧
          ∃ q, q < f.length ∧ f[q]? = reader.chunks.flatten[p]? := by
  have h1 := handle_accept model reader sr nc hs hm
  have h3 : (handle_pre_connect model reader).appended.flatten =
      reader.chunks.flatten := by
    rw [h1]; exact outputFrames_flatten _ reader.chunks
  refine ⟨h3, fun i j hij => frameIdx_mono _ i j hij, ?_⟩
  intro p hp
  have hp2 : p < (handle_pre_connect model reader).appended.flatten.length := by
    rw [h3]; exact hp
  obtain ⟨f, hf, q, hq, he⟩ :=
    frameIdx_contains (handle_pre_connect model reader).appended p hp2
  exact ⟨f, hf, q, hq, by rw [he, h3]⟩

/-- Witness for C6 at a concrete accepting model and two-chunk reader. -/
theorem C6_witness :
    mdlAccept.sessions.head? = some (some acceptAll) ∧
      parseMeta rdrTwoChunks.attributes = some (100, 1) ∧
      ((handle_pre_connect mdlAccept rdrTwoChunks).appended.flatten =
          rdrTwoChunks.chunks.flatten ∧
        (∀ i j, i ≤ j →
          frameIdx (handle_pre_connect mdlAccept rdrTwoChunks).appended i ≤
            frameIdx (handle_pre_connect mdlAccept rdrTwoChunks).appended j) ∧
        ∀ p, p < rdrTwoChunks.chunks.flatten.length →
          ∃ f,
            ((handle_pre_connect mdlAccept rdrTwoChunks).appended)[
              frameIdx (handle_pre_connect mdlAccept rdrTwoChunks).appended p]? = some f ∧
            ∃ q, q < f.length ∧ f[q]? = rdrTwoChunks.chunks.flatten[p]?) :=
  ⟨rfl, rfl, C6_theorem mdlAccept rdrTwoChunks 100 1 rfl rfl⟩

end Relay

namespace Relay

/-- Claim C7: flushing an already-flushed reframer yields an empty frame
sequence — `flush` clears the carry, so a second `flush` emits nothing. -/
theorem C7_theorem (s : AudioByteStream) :
    s.flush.1.flush.2 = [] ∧ s.flush.1.buf = [] :=
  ⟨rfl, rfl⟩

/-- Claim C8: when the stream metadata's sample rate or channel count is
absent or non-numeric, the relay fails fast — exactly one error is reported,
no chunk is consumed, no frame is appended, flush never runs, and nothing
else happens. -/
theorem C8_theorem (model : RealtimeModel) (reader : ByteStreamReader)
    (sink : Sink)
    (hs : model.sessions.head? = some (some sink))
    (hm : parseMeta reader.attributes = none) :
    handle_pre_connect model reader =
      { emptyRun with metaRead := true, errorLogs := 1 } := by
  simp only [handle_pre_connect, hs, hm]

/-- Witness for C8 at a reader missing the `sampleRate` attribute. -/
theorem C8_witness :
    mdlAccept.sessions.head? = some (some acceptAll) ∧
      parseMeta rdrBadMeta.attributes = none ∧
      handle_pre_connect mdlAccept rdrBadMeta =
        { emptyRun with metaRead := true, errorLogs := 1 } :=
  ⟨rfl, rfl, C8_theorem mdlAccept rdrBadMeta acceptAll rfl rfl⟩

/-- Claim C9: if the model's session list is empty or its first session is
`None`, `handle_pre_connect` returns immediately — metadata is not read, no
chunk is consumed, and no frame is appended. -/
theorem C9_theorem (model : RealtimeModel) (reader : ByteStreamReader)
    (h : model.sessions.head? = none ∨ model.sessions.head? = some none) :
    handle_pre_connect model reader = emptyRun := by
  rcases h with h | h <;> simp only [handle_pre_connect, h]

/-- Witness for C9 at a model with no sessions. -/
theorem C9_witness :
    (mdlNoSession.sessions.head? = none ∨
        mdlNoSession.sessions.head? = some none) ∧
      handle_pre_connect mdlNoSession rdrTwoChunks = emptyRun :=
  ⟨Or.inl rfl, C9_theorem mdlNoSession rdrTwoChunks (Or.inl rfl)⟩

/-- Claim C10: `SessionConfig.to_dict` never contains the key
`openai_api_key`, and two configs differing only in their API key produce
identical `to_dict` output — the key cannot flow into the logged
configuration. -/
theorem C10_theorem (c : SessionConfig) (k : String) :
    (∀ v, ("openai_api_key", v) ∉ c.to_dict) ∧
      c.to_dict.lookup "openai_api_key" = none ∧
      SessionConfig.to_dict { c with openai_api_key := k } = c.to_dict := by
  refine ⟨?_, ?_, rfl⟩
  · intro v
    simp [SessionConfig.to_dict, SessionConfig.asdict, List.filter]
  · simp [SessionConfig.to_dict, SessionConfig.asdict, List.filter, List.lookup]

end Relay
